import Mathlib

/-!
Shallow embedding of the docker-report registry tooling
(wikimedia/operations-docker-images-docker-report) and proofs about it.

The embedding covers:
* `docker_report/registry/__init__.py` — `Registry._get_all_pages`,
  `Registry.get_tags_for_image` (pagination and 404 handling);
* `docker_report/reporter.py` — `_parse_rule`, `_tag`, `_image`,
  `_filters_from_file`, `isTrue`, `Reporter._image_full_name`,
  `Reporter.get_images`, `Reporter.run_report`;
* `docker_report/registry/browser.py` — filter combination
  (`all(fn(x) for fn in filters)`), `RegistryBrowser.sort_tags`;
* `docker_report/registry/operations.py` / `registryctl.py` — the
  `fnmatch.filter` glob selection over tag lists.

HTTP traffic is modelled as an explicit session: the list of outcomes the
server produces for the successive requests the code issues.  Python
exceptions become explicit error values.
-/

namespace DockerReport

/-! ### Python string primitives

Python `str` operations used by the code, modelled on the character list of
a Lean `String` (Python strings and Lean strings are both sequences of
unicode characters, and all slicing in the source is by characters). -/

/-- Python `s.startswith(pre)`. -/
def strStartsWith (s pre : String) : Bool :=
  pre.data.isPrefixOf s.data

/-- Python `s.endswith(suf)` (used by `_get_all_pages` for the
`/tags/list` 404 workaround). -/
def strEndsWith (s suf : String) : Bool :=
  suf.data.isSuffixOf s.data

/-- `sub` occurs as a contiguous run inside `l`. -/
def isInfixOfCL (sub : List Char) : List Char → Bool
  | [] => sub.isEmpty
  | c :: rest => sub.isPrefixOf (c :: rest) || isInfixOfCL sub rest

/-- Python `sub in s` (substring containment, used by `contains:` rules). -/
def strContains (s sub : String) : Bool :=
  isInfixOfCL sub.data s.data

/-- Python `s[n:]` for a non-negative `n` (character slicing). -/
def strDrop (s : String) (n : Nat) : String :=
  ⟨s.data.drop n⟩

/-! ### Pagination (`Registry._get_all_pages`, registry/__init__.py 95-122)

A page body is modelled by the two JSON keys the code ever reads from a
listing payload: `repositories` (catalog pages) and `tags` (tags pages);
an absent key is `none` (the code supplies `[]` via `dict.get`). -/

/-- The JSON body of one listing page, restricted to the keys read by the
code (`resp.get("repositories", [])`, `resp.get("tags", [])`). -/
structure Payload where
  repositories : Option (List String) := none
  tags : Option (List String) := none
  deriving Repr, DecidableEq

/-- A successful HTTP response: its JSON body plus the optional
`next` pagination link (`resp.links["next"]["url"]`). -/
structure PageResponse where
  body : Payload
  nextLink : Option String := none
  deriving Repr, DecidableEq

/-- The outcome the server produces for one request issued by
`Registry._request`: a page, an HTTP error status (raised by
`raise_for_status` as `requests.exceptions.HTTPError`), or a
transport-level failure (any other `requests.RequestException`). -/
inductive FetchOutcome where
  | success (r : PageResponse)
  | httpError (status : Nat)
  | transportError
  deriving Repr, DecidableEq

/-- `Registry._get_all_pages(url_part)` run against a session: the list of
outcomes the server returns for the successive requests.  Returns `none`
when the session is too short to cover the requests the code issues
(never the case in the theorems below), otherwise `some` of either the
collected page bodies or the `RegistryError` payload (the failing
`url_part`).

Faithful to registry/__init__.py 95-122: pages accumulate in request
order; a page without a `next` link ends the loop; an HTTP 404 on a
`url_part` ending in `/tags/list` returns the pages accumulated so far
(the docker/distribution#2747 workaround); every other HTTP error and any
transport error raises `RegistryError(url_part)`. -/
def get_all_pages : String → List FetchOutcome → Option (Except String (List Payload))
  | _, [] => none
  | urlPart, outcome :: rest =>
    match outcome with
    | .success r =>
      match r.nextLink with
      | none => some (.ok [r.body])
      | some nxt => (get_all_pages nxt rest).map (fun res => res.map (fun ps => r.body :: ps))
    | .httpError status =>
      if status == 404 && strEndsWith urlPart "/tags/list" then some (.ok [])
      else some (.error urlPart)
    | .transportError => some (.error urlPart)

/-- `Registry.get_tags_for_image` (registry/__init__.py 124-131): fetch all
pages of `/v2/{name}/tags/list` and concatenate each page's `tags` array,
an absent `tags` key contributing `[]`. -/
def get_tags_for_image (image_name : String) (session : List FetchOutcome) :
    Option (Except String (List String)) :=
  (get_all_pages ("/v2/" ++ image_name ++ "/tags/list") session).map
    (fun res => res.map (fun pages => (pages.map (fun p => p.tags.getD [])).flatten))

/-- The `url_part` on which the request of index `rs.length` is issued,
after following the `next` links of the pages `rs`. -/
def failingUrl (url : String) : List PageResponse → String
  | [] => url
  | r :: rest => failingUrl (r.nextLink.getD url) rest

/-! ### A small regular-expression engine

Model of `re.search` for the pattern subset the rule files use: literal
characters, `.` (any character but a newline), a trailing or embedded `$`
(end of string; the pre-trailing-newline nuance of Python `$` is not
modelled), `tok*` repetition, and a leading `^` anchor.  The matcher is
written with explicit fuel so that concrete runs reduce inside the
kernel; one unit of fuel is spent per recursive call and the recursion
depth is bounded by `tokens + input length`, so the fuel supplied by
`regexSearch` is always sufficient. -/

/-- One token of a compiled pattern. -/
inductive RTok where
  | ch (c : Char)
  | dot
  | dollar
  | star (base : RTok)
  deriving Repr, DecidableEq

/-- Classify a single pattern character. -/
def tokOf (c : Char) : RTok :=
  if c = '.' then .dot else if c = '$' then .dollar else .ch c

/-- Compile a pattern string (already stripped of a leading `^`). -/
def parseRegex : List Char → List RTok
  | [] => []
  | c :: '*' :: rest => .star (tokOf c) :: parseRegex rest
  | c :: rest => tokOf c :: parseRegex rest

/-- Does a non-star token match one character? -/
def matchTok : RTok → Char → Bool
  | .ch c, c2 => c == c2
  | .dot, c2 => c2 != '\n'
  | .dollar, _ => false
  | .star _, _ => false

/-- Match a token list against a prefix of the input (fuel-bounded). -/
def matchHereF : Nat → List RTok → List Char → Bool
  | 0, _, _ => false
  | _ + 1, [], _ => true
  | fuel + 1, .dollar :: ts, s => s.isEmpty && matchHereF fuel ts s
  | fuel + 1, .star t :: ts, s =>
    matchHereF fuel ts s ||
      (match s with
       | [] => false
       | c :: s2 => matchTok t c && matchHereF fuel (.star t :: ts) s2)
  | fuel + 1, t :: ts, s =>
    match s with
    | [] => false
    | c :: s2 => matchTok t c && matchHereF fuel ts s2

/-- Try the match at every start position, as `re.search` does. -/
def searchFrom (fuel : Nat) (pat : List RTok) : List Char → Bool
  | [] => matchHereF fuel pat []
  | c :: s2 => matchHereF fuel pat (c :: s2) || searchFrom fuel pat s2

/-- Model of `re.compile(pattern).search(s)` returning whether a match
exists (`_parse_rule` only uses the truthiness of the match object). -/
def regexSearch (pattern : String) (s : String) : Bool :=
  match pattern.data with
  | '^' :: rest =>
    let toks := parseRegex rest
    matchHereF (toks.length + s.data.length + 1) toks s.data
  | pdata =>
    let toks := parseRegex pdata
    searchFrom (toks.length + s.data.length + 1) toks s.data

/-! ### The rule engine (reporter.py 137-216)

A configparser section is modelled by the four keys the code reads.
Closures become Lean functions; a dropped rule is `none`. -/

/-- The keys of one rule section that the code consults. -/
structure RuleSection where
  name : Option String := none
  tag : Option String := none
  name_match : Option String := none
  action : Option String := none
  deriving Repr, DecidableEq

/-- `isTrue` (reporter.py 158-161): the null rule. -/
def isTrue (_ : String) : Bool :=
  true

/-- `_parse_rule` (reporter.py 195-203): `regex:` and `contains:` rules
produce predicates, anything else raises `ValueError` (modelled as
`Except.error` carrying the offending rule text). -/
def parse_rule (rule : String) : Except String (String → Bool) :=
  if strStartsWith rule "regex:" then .ok (regexSearch (strDrop rule 6))
  else if strStartsWith rule "contains:" then .ok (fun x => strContains x (strDrop rule 9))
  else .error rule

/-- The closure built by `_tag` (reporter.py 181-190) once both conditions
parsed: out-of-scope images are accepted, in-scope ones get the tag test,
negated for `action = exclude`. -/
def tagCondition (rules : RuleSection) (name_cond tag_cond : String → Bool)
    (data : String × String) : Bool :=
  if !(name_cond data.1) then true
  else if rules.action.getD "include" == "exclude" then !(tag_cond data.2)
  else tag_cond data.2

/-- `_tag` (reporter.py 163-192): parse `name_match` (absent key defaults
to `isTrue`, invalid syntax drops the whole rule), parse `tag` (invalid
syntax drops the whole rule), and build the tag filter.  The `tag` key is
present whenever `_filters_from_file` calls this, mirroring the guard at
reporter.py 145. -/
def tag_rule (rules : RuleSection) : Option (String × String → Bool) :=
  match rules.name_match with
  | some nm =>
    match parse_rule nm with
    | .error _ => none
    | .ok name_cond =>
      match rules.tag with
      | none => none
      | some t =>
        match parse_rule t with
        | .error _ => none
        | .ok tag_cond => some (tagCondition rules name_cond tag_cond)
  | none =>
    match rules.tag with
    | none => none
    | some t =>
      match parse_rule t with
      | .error _ => none
      | .ok tag_cond => some (tagCondition rules isTrue tag_cond)

/-- `_image` (reporter.py 206-216): parse `name` (invalid syntax drops the
rule), negate for `action = exclude`. -/
def image_rule (rules : RuleSection) : Option (String → Bool) :=
  match rules.name with
  | none => none
  | some nr =>
    match parse_rule nr with
    | .error _ => none
    | .ok name_cond =>
      if rules.action.getD "include" == "exclude" then some (fun n => !(name_cond n))
      else some name_cond

/-- `_filters_from_file` (reporter.py 137-155): walk the sections in
order; a section with a `tag` key becomes a tag filter, otherwise one
with a `name` key becomes an image filter, otherwise it is discarded with
a warning; a rule whose parse failed (`none`) is skipped. -/
def filters_from_file :
    List (String × RuleSection) → List (String → Bool) × List (String × String → Bool)
  | [] => ([], [])
  | (_, rules) :: rest =>
    let r := filters_from_file rest
    if rules.tag.isSome then
      match tag_rule rules with
      | some f => (r.1, f :: r.2)
      | none => r
    else if rules.name.isSome then
      match image_rule rules with
      | some f => (f :: r.1, r.2)
      | none => r
    else r

/-! ### Filter combination (registry/browser.py 45-73)

`RegistryBrowser._get_images_list` keeps an image iff
`all(fn(img) for fn in self.name_filters)`, and `get_image_tags` keeps a
tag iff `all(fn((image_name, tag)) for fn in self.tag_filters)`.  Both
are instances of the same conjunction over a filter list. -/

/-- `all(fn(x) for fn in filters)`: the item passes every filter. -/
def acceptsAll {α : Type} (filters : List (α → Bool)) (x : α) : Bool :=
  filters.all (fun fn => fn x)

/-- `RegistryBrowser._get_images_list` (browser.py 45-56) applied to
already-fetched catalog pages: per page, keep the repositories accepted
by every name filter, and concatenate in page order. -/
def get_images_list (name_filters : List (String → Bool)) (pages : List Payload) :
    List String :=
  (pages.map (fun resp => (resp.repositories.getD []).filter (acceptsAll name_filters))).flatten

/-! ### Tag sorting (registry/browser.py 75-94)

`sort_tags` derives a creation date per tag from the first history entry
of the manifest and sorts by it.  The manifest JSON is modelled by the
shape distinctions the code makes on its way to
`pages[0]["history"][0]["v1Compatibility"]` and
`json.loads(data)["created"].split(".")`: each constructor corresponds to
one Python outcome (a value, or one exception class). -/

/-- Python exception classes relevant to `get_tag_date`.  The `except`
clause at browser.py 89 catches exactly `KeyError`, `IndexError`,
`TypeError` and `json.JSONDecodeError`. -/
inductive PyExc where
  | keyError
  | indexError
  | typeError
  | jsonDecodeError
  | valueError
  | attributeError
  deriving Repr, DecidableEq

/-- Is the exception in the catch tuple of browser.py 89? -/
def caughtBySort : PyExc → Bool
  | .keyError => true
  | .indexError => true
  | .typeError => true
  | .jsonDecodeError => true
  | .valueError => false
  | .attributeError => false

/-- The JSON value found under `created`, as the code discriminates it:
a string gets `.split(".")`, any other value has no `split` attribute. -/
inductive CreatedVal where
  | nonString
  | str (s : String)
  deriving Repr, DecidableEq

/-- The nested `v1Compatibility` document, by the outcome of
`json.loads` on it: a non-string raises `TypeError`, unparsable text
raises `json.JSONDecodeError`, a parsed non-object raises `TypeError`
when subscripted with `"created"`, and an object may or may not carry a
`created` key. -/
inductive CompatSource where
  | notAString
  | malformedJson
  | jsonNonObj
  | obj (created : Option CreatedVal)
  deriving Repr, DecidableEq

/-- One element of the manifest `history` array: a dict with an optional
`v1Compatibility` key. -/
structure HistoryEntry where
  v1Compatibility : Option CompatSource := none
  deriving Repr, DecidableEq

/-- One page of the manifest response: subscripting a non-dict body with
`"history"` raises `TypeError`; a dict may lack the `history` key. -/
inductive ManifestPage where
  | nonDict
  | dict (history : Option (List HistoryEntry))
  deriving Repr, DecidableEq

/-- Python `created.split(".")`: split at every dot, keeping empty
pieces, so the two-element unpacking at browser.py 86 succeeds exactly
when the string contains one dot. -/
def splitOnDot : List Char → List (List Char)
  | [] => [[]]
  | c :: rest =>
    match splitOnDot rest with
    | [] => if c = '.' then [[], [c]] else [[c]]
    | p :: ps => if c = '.' then [] :: p :: ps else (c :: p) :: ps

/-! `datetime.strptime(date_str, "%Y-%m-%dT%H:%M:%S")`, modelled closely
enough for totality: a four-digit year, one-or-two-digit bounded month,
day, hour, minute and second with the literal separators, consuming the
whole string, the result encoded as a single natural number that orders
timestamps lexicographically. -/

/-- Read exactly `n` decimal digits. -/
def readDigits : Nat → Nat → List Char → Option (Nat × List Char)
  | 0, acc, s => some (acc, s)
  | _ + 1, _, [] => none
  | n + 1, acc, c :: s =>
    if c.isDigit then readDigits n (acc * 10 + (c.toNat - 48)) s else none

/-- Read one or two decimal digits (the `%m`/`%d`/`%H`/`%M`/`%S` style),
preferring two. -/
def readOneOrTwoDigits : List Char → Option (Nat × List Char)
  | c :: c2 :: s =>
    if c.isDigit then
      if c2.isDigit then some ((c.toNat - 48) * 10 + (c2.toNat - 48), s)
      else some (c.toNat - 48, c2 :: s)
    else none
  | [c] => if c.isDigit then some (c.toNat - 48, []) else none
  | [] => none

/-- Expect a literal separator character. -/
def readLit (c : Char) : List Char → Option (List Char)
  | c2 :: s => if c == c2 then some s else none
  | [] => none

/-- Days in a month of the Gregorian calendar. -/
def daysInMonth (year month : Nat) : Nat :=
  if month == 2 then
    if year % 4 == 0 && (year % 100 != 0 || year % 400 == 0) then 29 else 28
  else if month == 4 || month == 6 || month == 9 || month == 11 then 30
  else 31

/-- `datetime.strptime(s, "%Y-%m-%dT%H:%M:%S")`, as a total function:
`none` models a `ValueError`.  The result is
`((((y * 13 + m) * 32 + d) * 24 + H) * 60 + M) * 62 + S`, a strictly
monotone encoding of the timestamp. -/
def strptime (s : String) : Option Nat := do
  let (y, r1) ← readDigits 4 0 s.data
  let r2 ← readLit '-' r1
  let (m, r3) ← readOneOrTwoDigits r2
  let r4 ← readLit '-' r3
  let (d, r5) ← readOneOrTwoDigits r4
  let r6 ← readLit 'T' r5
  let (hh, r7) ← readOneOrTwoDigits r6
  let r8 ← readLit ':' r7
  let (mm, r9) ← readOneOrTwoDigits r8
  let r10 ← readLit ':' r9
  let (ss, r11) ← readOneOrTwoDigits r10
  if r11.isEmpty && 1 ≤ m && m ≤ 12 && 1 ≤ d && d ≤ daysInMonth y m
      && hh ≤ 23 && mm ≤ 59 && ss ≤ 61 then
    some (((((y * 13 + m) * 32 + d) * 24 + hh) * 60 + mm) * 62 + ss)
  else none

/-- `get_tag_date` (browser.py 81-92) on the already-fetched manifest
pages of one tag, before the `except` clause: either the derived date or
the Python exception the body raises. -/
def get_tag_date (pages : List ManifestPage) : Except PyExc Nat :=
  match pages with
  | [] => .error .indexError
  | page :: _ =>
    match page with
    | .nonDict => .error .typeError
    | .dict none => .error .keyError
    | .dict (some []) => .error .indexError
    | .dict (some (entry :: _)) =>
      match entry.v1Compatibility with
      | none => .error .keyError
      | some .notAString => .error .typeError
      | some .malformedJson => .error .jsonDecodeError
      | some .jsonNonObj => .error .typeError
      | some (.obj none) => .error .keyError
      | some (.obj (some .nonString)) => .error .attributeError
      | some (.obj (some (.str created))) =>
        match splitOnDot created.data with
        | [dateStr, _] =>
          match strptime ⟨dateStr⟩ with
          | some date => .ok date
          | none => .error .valueError
        | _ => .error .valueError

/-- How `sort_tags` terminates: the sorted list, the
`RegistryBrowserError` raised by the `except` clause (carrying its
message), or a Python exception that the clause does not catch and that
therefore propagates unchanged. -/
inductive SortOutcome where
  | sorted (tags : List String)
  | sortError (msg : String)
  | uncaught (e : PyExc)
  deriving Repr, DecidableEq

/-- The key computation for one tag inside `sorted(tags, key=get_tag_date)`:
a caught exception becomes `RegistryBrowserError("Could not sort " + image)`,
anything else propagates. -/
def sortKey (image : String) (manifests : String → List ManifestPage) (t : String) :
    Except SortOutcome (String × Nat) :=
  match get_tag_date (manifests t) with
  | .ok date => .ok (t, date)
  | .error e =>
    if caughtBySort e then .error (.sortError ("Could not sort " ++ image))
    else .error (.uncaught e)

/-- Compute all keys left to right, stopping at the first exception, as
CPython `sorted` does before comparing. -/
def computeKeys (image : String) (manifests : String → List ManifestPage) :
    List String → Except SortOutcome (List (String × Nat))
  | [] => .ok []
  | t :: ts =>
    match sortKey image manifests t with
    | .error e => .error e
    | .ok p => (computeKeys image manifests ts).map (fun ps => p :: ps)

/-- Stable insertion of a keyed tag into an ascending list. -/
def insertKeyed (p : String × Nat) : List (String × Nat) → List (String × Nat)
  | [] => [p]
  | q :: qs => if q.2 ≤ p.2 then q :: insertKeyed p qs else p :: q :: qs

/-- Stable ascending sort by the derived date. -/
def sortKeyed : List (String × Nat) → List (String × Nat)
  | [] => []
  | p :: ps => insertKeyed p (sortKeyed ps)

/-- `RegistryBrowser.sort_tags` (browser.py 75-94): sort the tags of one
image oldest first by manifest creation date; `manifests` gives the pages
that `self._get_all_pages` returns for each tag. -/
def sort_tags (image : String) (manifests : String → List ManifestPage)
    (tags : List String) : SortOutcome :=
  match computeKeys image manifests tags with
  | .error e => e
  | .ok keyed => .sorted ((sortKeyed keyed).map (fun p => p.1))

/-! ### The orchestrator (reporter.py 228-267)

`Reporter.get_images` consumes the `image_name -> tags` mapping produced
by `self._browser.get_image_tags(sort=True)` and yields one fully
qualified reference per image; `main` feeds those references through
`executor.map(report.run_report, ...)`.  The mapping is a parameter here
(an association list in iteration order), and each dispatched task's
outcome is a parameter classifying what the external `DockerReport`
collaborator did for that reference. -/

/-- `Reporter._image_full_name` (reporter.py 256-258). -/
def image_full_name (registry name tag : String) : String :=
  registry ++ "/" ++ name ++ ":" ++ tag

/-- Python `lst[-1]`: the last element, or an `IndexError` (`none`) on an
empty list. -/
def pyLast : List String → Option String
  | [] => none
  | [t] => some t
  | _ :: t :: ts => pyLast (t :: ts)

/-- `Reporter.get_images` (reporter.py 260-267) on an already-discovered
mapping: one reference per image, targeting the image's last tag.
`none` models the `IndexError` of `tags[-1]` on an empty tag list (which
`get_image_tags` never produces). -/
def get_images (registry : String) : List (String × List String) → Option (List String)
  | [] => some []
  | p :: rest =>
    match pyLast p.2 with
    | none => none
    | some tag => (get_images registry rest).map (fun imgs => image_full_name registry p.1 tag :: imgs)

/-- What the external `DockerReport` collaborator does for one dispatched
reference: the image is not a Debian image (no report), the full
check→generate→submit→prune sequence succeeds, or some step raises
`DockerReportError`. -/
inductive ReportOutcome where
  | notDebian
  | success
  | failure
  deriving Repr, DecidableEq

/-- The mutable state of a `Reporter` (reporter.py 228-235). -/
structure ReporterState where
  exitcode : Nat
  success : List String
  failed : List String
  deriving Repr, DecidableEq

/-- The state of a freshly constructed `Reporter`. -/
def initialState : ReporterState :=
  { exitcode := 0, success := [], failed := [] }

/-- `Reporter.run_report` (reporter.py 237-254) for one image: a
non-Debian image leaves the state unchanged, a successful report appends
to the success list, a `DockerReportError` is caught, appends to the
failed list and sets exit code 3. -/
def run_report (outcome : String → ReportOutcome) (st : ReporterState) (image : String) :
    ReporterState :=
  match outcome image with
  | .notDebian => st
  | .success => { st with success := st.success ++ [image] }
  | .failure => { st with failed := st.failed ++ [image], exitcode := 3 }

/-- One orchestrator run (reporter.py 260-267 plus the
`executor.map(report.run_report, report.get_images())` loop of `main`):
the discovery phase either fails with a `RegistryError` (which includes
`RegistryBrowserError`; `get_images` catches it, sets exit code 2 and
yields nothing, so no task is dispatched) or produces the mapping, whose
references are each dispatched once.  Returns the dispatched references
and the final reporter state. -/
def reporter_run (registry : String)
    (discovery : Except String (List (String × List String)))
    (outcome : String → ReportOutcome) : Option (List String × ReporterState) :=
  match discovery with
  | .error _ => some ([], { initialState with exitcode := 2 })
  | .ok imageTags =>
    (get_images registry imageTags).map
      (fun images => (images, images.foldl (run_report outcome) initialState))

/-! ### Glob tag selection (registry/operations.py 33-55, registryctl.py 107-114)

`fnmatch.filter(tags, tag_glob)` keeps, in list order, the tags matched
by the glob.  The matcher models `fnmatch.fnmatch` for the `*`, `?` and
literal constituents (no `[seq]` classes appear in this repository), with
the whole name required to match.  It is fuel-bounded like the regex
engine; `fnmatchOne` supplies fuel that always suffices, since each call
consumes a unit and the depth is bounded by pattern plus input length. -/

/-- Fuel-bounded glob match of a whole input. -/
def globMatchF : Nat → List Char → List Char → Bool
  | 0, _, _ => false
  | _ + 1, [], s => s.isEmpty
  | fuel + 1, '*' :: ps, s =>
    globMatchF fuel ps s ||
      (match s with
       | [] => false
       | _ :: s2 => globMatchF fuel ('*' :: ps) s2)
  | fuel + 1, '?' :: ps, s =>
    match s with
    | [] => false
    | _ :: s2 => globMatchF fuel ps s2
  | fuel + 1, c :: ps, s =>
    match s with
    | [] => false
    | c2 :: s2 => c == c2 && globMatchF fuel ps s2

/-- `fnmatch.fnmatch(name, pat)` for this repository's patterns. -/
def fnmatchOne (name pat : String) : Bool :=
  globMatchF (pat.data.length + name.data.length + 1) pat.data name.data

/-- `fnmatch.filter(names, pat)`: the matching names, in input order. -/
def fnmatch_filter (names : List String) (pat : String) : List String :=
  names.filter (fun n => fnmatchOne n pat)

/-! ### Helper lemmas -/

/-- `s ++ t` ends with `t`. -/
theorem strEndsWith_append (s t : String) : strEndsWith (s ++ t) t = true := by
  unfold strEndsWith
  rw [String.data_append]
  exact List.isSuffixOf_iff_suffix.mpr (List.suffix_append s.data t.data)

/-- `pre ++ sub` contains `sub`. -/
theorem isInfixOfCL_append (sub : List Char) :
    ∀ pre : List Char, isInfixOfCL sub (pre ++ sub) = true := by
  intro pre
  induction pre with
  | nil =>
    cases sub with
    | nil => rfl
    | cons c rest =>
      unfold isInfixOfCL
      simp [List.isPrefixOf_iff_prefix]
  | cons p ps ih =>
    unfold isInfixOfCL
    simp only [List.cons_append, Bool.or_eq_true]
    exact Or.inr ih

/-- `Reporter._image_full_name` always contains the image name. -/
theorem strContains_prefix_append (pre s : String) :
    strContains (pre ++ s) s = true := by
  unfold strContains
  rw [String.data_append]
  exact isInfixOfCL_append s.data pre.data

/-- `tags[-1]` agrees with `List.getLast?`. -/
theorem pyLast_eq_getLast? : ∀ l : List String, pyLast l = l.getLast? := by
  intro l
  induction l with
  | nil => rfl
  | cons t ts ih =>
    cases ts with
    | nil => rfl
    | cons t2 ts2 =>
      rw [List.getLast?_cons_cons]
      exact ih

/-- The pagination loop over a chain of successful pages, each but the
last carrying a `next` link: every page body is collected in request
order, and the loop returns at the first page without a link, leaving
any later session entries unrequested. -/
theorem getAllPages_chain (rs0 : List PageResponse) (rlast : PageResponse)
    (hlast : rlast.nextLink = none) (hmid : ∀ r ∈ rs0, r.nextLink ≠ none) :
    ∀ (url : String) (extra : List FetchOutcome),
      get_all_pages url ((rs0 ++ [rlast]).map FetchOutcome.success ++ extra)
        = some (.ok ((rs0 ++ [rlast]).map (fun r => r.body))) := by
  induction rs0 with
  | nil =>
    intro url extra
    simp [get_all_pages, hlast]
  | cons r rest ih =>
    intro url extra
    have h0 : r.nextLink ≠ none := hmid r (List.mem_cons_self r rest)
    obtain ⟨nxt, hnxt⟩ : ∃ u, r.nextLink = some u := by
      cases hr : r.nextLink with
      | none => exact absurd hr h0
      | some u => exact ⟨u, rfl⟩
    have ih2 := ih (fun x hx => hmid x (List.mem_cons_of_mem r hx)) nxt extra
    simp only [List.cons_append, List.map_cons, get_all_pages, hnxt, List.append_eq, ih2]
    rfl

/-- The pagination loop over a chain of successful pages all carrying a
`next` link, then an HTTP 404: the pages accumulated so far are returned
when the failing `url_part` ends in `/tags/list`. -/
theorem getAllPages_chain_404 (rs0 : List PageResponse)
    (hmid : ∀ r ∈ rs0, r.nextLink ≠ none) :
    ∀ (url : String) (rest : List FetchOutcome),
      strEndsWith (failingUrl url rs0) "/tags/list" = true →
      get_all_pages url (rs0.map FetchOutcome.success ++ .httpError 404 :: rest)
        = some (.ok (rs0.map (fun r => r.body))) := by
  induction rs0 with
  | nil =>
    intro url rest hurl
    simp only [failingUrl] at hurl
    simp [get_all_pages, hurl]
  | cons r rs ih =>
    intro url rest hurl
    have h0 : r.nextLink ≠ none := hmid r (List.mem_cons_self r rs)
    obtain ⟨nxt, hnxt⟩ : ∃ u, r.nextLink = some u := by
      cases hr : r.nextLink with
      | none => exact absurd hr h0
      | some u => exact ⟨u, rfl⟩
    have hurl2 : strEndsWith (failingUrl nxt rs) "/tags/list" = true := by
      simpa only [failingUrl, hnxt, Option.getD_some] using hurl
    have ih2 := ih (fun x hx => hmid x (List.mem_cons_of_mem r hx)) nxt rest hurl2
    simp only [List.cons_append, List.map_cons, get_all_pages, hnxt, List.append_eq, ih2]
    rfl

/-! ### Claims -/

/-- C1.  For every mapping of image name to non-empty tag list produced
by discovery, `Reporter.get_images` builds exactly one task per image,
targeting the last element of the image's tag list combined into
`registry/name:tag`. -/
theorem get_images_one_task_last_tag (registry : String)
    (imageTags : List (String × List String))
    (h : ∀ p ∈ imageTags, p.2 ≠ []) :
    get_images registry imageTags
      = some (imageTags.map (fun p => image_full_name registry p.1 (p.2.getLast?.getD "")))
    ∧ (imageTags.map (fun p => image_full_name registry p.1 (p.2.getLast?.getD ""))).length
        = imageTags.length := by
  refine ⟨?_, List.length_map _ _⟩
  induction imageTags with
  | nil => rfl
  | cons p rest ih =>
    have hp : p.2 ≠ [] := h p (List.mem_cons_self p rest)
    obtain ⟨t, ht⟩ : ∃ t, p.2.getLast? = some t := by
      cases hl : p.2.getLast? with
      | none => exact absurd (List.getLast?_eq_none_iff.mp hl) hp
      | some t => exact ⟨t, rfl⟩
    have ih2 := ih (fun x hx => h x (List.mem_cons_of_mem p hx))
    simp [get_images, pyLast_eq_getLast?, ht, ih2]

/-- C1 witness: for the mapping `test` ↦ `["1","3","latest"]` exactly one
task is dispatched, targeting `example.org/test:latest`. -/
theorem get_images_one_task_last_tag_witness :
    get_images "example.org" [("test", ["1", "3", "latest"])]
      = some ["example.org/test:latest"] := by
  have h := get_images_one_task_last_tag "example.org" [("test", ["1", "3", "latest"])]
    (by decide)
  exact h.1.trans (by decide)

/-- C2.  For every session in which each page except the last carries a
`next` link, `_get_all_pages` returns the page payloads in fetch order
and stops at the first page without a link (later session entries are
never requested). -/
theorem get_all_pages_order_and_stop (url : String) (rs0 : List PageResponse)
    (rlast : PageResponse) (extra : List FetchOutcome)
    (hlast : rlast.nextLink = none) (hmid : ∀ r ∈ rs0, r.nextLink ≠ none) :
    get_all_pages url ((rs0 ++ [rlast]).map FetchOutcome.success ++ extra)
      = some (.ok ((rs0 ++ [rlast]).map (fun r => r.body))) :=
  getAllPages_chain rs0 rlast hlast hmid url extra

/-- C2 witness: the two catalog pages of the spec example come back as
exactly those two payloads, in order. -/
theorem get_all_pages_order_and_stop_witness :
    get_all_pages "/v2/_catalog"
      [FetchOutcome.success ⟨⟨some ["bar", "baz", "baz/foo", "foo"], none⟩,
          some "/v2/_catalog?last=foo&n=100"⟩,
       FetchOutcome.success ⟨⟨some ["test/pinkunicorn"], none⟩, none⟩]
      = some (.ok [⟨some ["bar", "baz", "baz/foo", "foo"], none⟩,
                   ⟨some ["test/pinkunicorn"], none⟩]) := by
  have h := get_all_pages_order_and_stop "/v2/_catalog"
    [⟨⟨some ["bar", "baz", "baz/foo", "foo"], none⟩, some "/v2/_catalog?last=foo&n=100"⟩]
    ⟨⟨some ["test/pinkunicorn"], none⟩, none⟩ [] rfl (by decide)
  simpa using h

/-- C3 counterexample: a session whose failing path ends in `/tags/list`
but whose 404 arrives after a successful page.  `_get_all_pages` returns
the accumulated page, not an empty page set, so the claim's "returns an
empty page set" is false for this request sequence. -/
theorem get_all_pages_404_not_always_empty :
    get_all_pages "/v2/foo/tags/list"
      [FetchOutcome.success ⟨⟨none, some ["1"]⟩, some "/v2/other/tags/list"⟩,
       FetchOutcome.httpError 404]
      = some (.ok [⟨none, some ["1"]⟩])
    ∧ strEndsWith "/v2/other/tags/list" "/tags/list" = true
    ∧ ([(⟨none, some ["1"]⟩ : Payload)] : List Payload) ≠ [] := by
  refine ⟨rfl, by decide, by decide⟩

/-- C3 (amended).  When the failing request of a 404-terminated session
has a path ending in `/tags/list`, `_get_all_pages` returns the pages
accumulated before the failure — the empty page set when the 404 hits the
first request, so `get_tags_for_image` then returns `[]` — while a 404 on
a path not ending in `/tags/list`, any other HTTP error status, and any
transport-level failure raise a `RegistryError` carrying the failing path
fragment. -/
theorem get_all_pages_error_handling (url name : String) (status : Nat)
    (rest : List FetchOutcome) (rs0 : List PageResponse) :
    ((∀ r ∈ rs0, r.nextLink ≠ none) →
       strEndsWith (failingUrl url rs0) "/tags/list" = true →
       get_all_pages url (rs0.map FetchOutcome.success ++ .httpError 404 :: rest)
         = some (.ok (rs0.map (fun r => r.body))))
    ∧ get_tags_for_image name (.httpError 404 :: rest) = some (.ok [])
    ∧ (strEndsWith url "/tags/list" = false →
         get_all_pages url (.httpError 404 :: rest) = some (.error url))
    ∧ (status ≠ 404 →
         get_all_pages url (.httpError status :: rest) = some (.error url))
    ∧ get_all_pages url (.transportError :: rest) = some (.error url) := by
  refine ⟨fun hmid hurl => getAllPages_chain_404 rs0 hmid url rest hurl, ?_, ?_, ?_, ?_⟩
  · have hsuffix : strEndsWith ("/v2/" ++ name ++ "/tags/list") "/tags/list" = true := by
      rw [String.append_assoc]
      exact strEndsWith_append ("/v2/" ++ name) "/tags/list"
    simp [get_tags_for_image, get_all_pages, hsuffix, Except.map]
  · intro hurl
    simp [get_all_pages, hurl]
  · intro hstatus
    have : (status == 404) = false := by simpa using hstatus
    simp [get_all_pages, this]
  · rfl

/-- C3 witness: a 404 on the first tags-list request yields zero tags,
and the error cases raise `RegistryError` with the failing path. -/
theorem get_all_pages_error_handling_witness :
    get_all_pages "/v2/foo/tags/list" [.httpError 404] = some (.ok [])
    ∧ get_tags_for_image "foo" [.httpError 404] = some (.ok [])
    ∧ get_all_pages "/v2/_catalog" [.httpError 404] = some (.error "/v2/_catalog")
    ∧ get_all_pages "/v2/foo/tags/list" [.httpError 500]
        = some (.error "/v2/foo/tags/list")
    ∧ get_all_pages "/v2/foo/tags/list" [.transportError]
        = some (.error "/v2/foo/tags/list") := by
  have h := get_all_pages_error_handling "/v2/_catalog" "foo" 500 [] []
  have h2 := get_all_pages_error_handling "/v2/foo/tags/list" "foo" 500 [] []
  refine ⟨?_, h.2.1, h.2.2.1 (by decide), h2.2.2.2.1 (by decide), h2.2.2.2.2⟩
  have h3 := h2.1 (by simp) (by decide)
  simpa using h3

/-- C10.  `get_tags_for_image` concatenates, in page order, the `tags`
arrays of the fetched pages, a page without a `tags` key contributing
zero tags, so a run over pages all lacking the key yields `[]`. -/
theorem get_tags_concatenates_pages (name : String) (rs0 : List PageResponse)
    (rlast : PageResponse) (extra : List FetchOutcome)
    (hlast : rlast.nextLink = none) (hmid : ∀ r ∈ rs0, r.nextLink ≠ none) :
    get_tags_for_image name ((rs0 ++ [rlast]).map FetchOutcome.success ++ extra)
      = some (.ok (((rs0 ++ [rlast]).map (fun r => r.body.tags.getD [])).flatten))
    ∧ ((∀ r ∈ rs0 ++ [rlast], r.body.tags = none) →
        get_tags_for_image name ((rs0 ++ [rlast]).map FetchOutcome.success ++ extra)
          = some (.ok [])) := by
  have hbase :
      get_tags_for_image name ((rs0 ++ [rlast]).map FetchOutcome.success ++ extra)
        = some (.ok (((rs0 ++ [rlast]).map (fun r => r.body.tags.getD [])).flatten)) := by
    unfold get_tags_for_image
    rw [getAllPages_chain rs0 rlast hlast hmid _ extra]
    simp [Except.map, List.map_map]
    rfl
  refine ⟨hbase, fun hnone => ?_⟩
  rw [hbase]
  have : ((rs0 ++ [rlast]).map (fun r => r.body.tags.getD [])).flatten = [] := by
    rw [List.flatten_eq_nil_iff]
    intro l hl
    obtain ⟨r, hr, hrl⟩ := List.mem_map.mp hl
    rw [hnone r hr] at hrl
    exact hrl.symm
  rw [this]

/-- C10 witness: two pages, one carrying tags and one without a `tags`
key, concatenate to just the first page's tags; two keyless pages yield
`[]`. -/
theorem get_tags_concatenates_pages_witness :
    get_tags_for_image "foo"
      [FetchOutcome.success ⟨⟨none, some ["a", "b"]⟩, some "/v2/foo/tags/list?last=b"⟩,
       FetchOutcome.success ⟨⟨none, none⟩, none⟩]
      = some (.ok ["a", "b"])
    ∧ get_tags_for_image "foo"
        [FetchOutcome.success ⟨⟨none, none⟩, some "/v2/foo/tags/list?last=b"⟩,
         FetchOutcome.success ⟨⟨none, none⟩, none⟩]
        = some (.ok []) := by
  have h1 := get_tags_concatenates_pages "foo"
    [⟨⟨none, some ["a", "b"]⟩, some "/v2/foo/tags/list?last=b"⟩]
    ⟨⟨none, none⟩, none⟩ [] rfl (by decide)
  have h2 := get_tags_concatenates_pages "foo"
    [⟨⟨none, none⟩, some "/v2/foo/tags/list?last=b"⟩]
    ⟨⟨none, none⟩, none⟩ [] rfl (by decide)
  constructor
  · have := h1.1
    simpa using this
  · have := h2.2 (by decide)
    simpa using this

/-- C4.  A tag rule whose `name_match` (defaulting to always-true when
the key is absent) rejects the image evaluates to true; when it accepts
the image, the rule evaluates to the tag test for `action = include` and
to its negation for `action = exclude`.  The second conjunct checks the
spec's concrete rule on its three (image, tag) pairs. -/
theorem tag_rule_scoping (r : RuleSection) (tpat : String)
    (name_cond tag_cond : String → Bool)
    (htag : r.tag = some tpat) (htc : parse_rule tpat = .ok tag_cond)
    (hnm : (r.name_match = none ∧ name_cond = isTrue) ∨
           (∃ m, r.name_match = some m ∧ parse_rule m = .ok name_cond)) :
    (∃ f, tag_rule r = some f ∧ ∀ img tg,
      (name_cond img = false → f (img, tg) = true)
      ∧ (name_cond img = true → r.action.getD "include" = "include" →
          f (img, tg) = tag_cond tg)
      ∧ (name_cond img = true → r.action.getD "include" = "exclude" →
          f (img, tg) = !(tag_cond tg)))
    ∧ (∃ g, tag_rule { tag := some "regex:.*production$",
                       name_match := some "contains:pinkunicorn/",
                       action := some "include" } = some g
        ∧ g ("pinkunicorn/foo", "3-production") = true
        ∧ g ("pinkunicorn/foo", "10") = false
        ∧ g ("other/foo", "10") = true) := by
  constructor
  · have hmain : tag_rule r = some (tagCondition r name_cond tag_cond) := by
      rcases hnm with ⟨hnone, hcond⟩ | ⟨m, hm, hpm⟩
      · subst hcond
        simp [tag_rule, hnone, htag, htc]
      · simp [tag_rule, hm, hpm, htag, htc]
    refine ⟨tagCondition r name_cond tag_cond, hmain, fun img tg => ⟨?_, ?_, ?_⟩⟩
    · intro hrej
      simp [tagCondition, hrej]
    · intro hacc hact
      simp [tagCondition, hacc, hact]
    · intro hacc hact
      simp [tagCondition, hacc, hact]
  · exact ⟨_, rfl, by decide, by decide, by decide⟩

/-- C4 witness: the theorem applied to the spec's rule
(`name_match = contains:pinkunicorn/`, `tag = regex:.*production$`,
action include) yields a filter accepting the in-scope matching pair,
rejecting the in-scope non-matching pair, and accepting the
out-of-scope pair. -/
theorem tag_rule_scoping_witness :
    ∃ g, tag_rule { tag := some "regex:.*production$",
                    name_match := some "contains:pinkunicorn/",
                    action := some "include" } = some g
      ∧ g ("pinkunicorn/foo", "3-production") = true
      ∧ g ("pinkunicorn/foo", "10") = false
      ∧ g ("other/foo", "10") = true :=
  (tag_rule_scoping
    { tag := some "regex:.*production$", name_match := some "contains:pinkunicorn/",
      action := some "include" }
    "regex:.*production$"
    (fun x => strContains x (strDrop "contains:pinkunicorn/" 9))
    (regexSearch (strDrop "regex:.*production$" 6))
    rfl rfl (Or.inr ⟨"contains:pinkunicorn/", rfl, rfl⟩)).2

/-- C5.  A rule set accepts an input iff every member predicate accepts
it: the empty rule set accepts everything, removing an always-true
predicate never changes acceptance, and adding an always-false predicate
rejects everything. -/
theorem ruleset_and_semantics {α : Type} (filters pre post : List (α → Bool)) (x : α)
    (tt ff : α → Bool) (htt : ∀ y, tt y = true) (hff : ∀ y, ff y = false) :
    (acceptsAll filters x = true ↔ ∀ fn ∈ filters, fn x = true)
    ∧ acceptsAll ([] : List (α → Bool)) x = true
    ∧ acceptsAll (pre ++ tt :: post) x = acceptsAll (pre ++ post) x
    ∧ acceptsAll (pre ++ ff :: post) x = false := by
  refine ⟨?_, rfl, ?_, ?_⟩
  · simp [acceptsAll, List.all_eq_true]
  · simp [acceptsAll, List.all_append, List.all_cons, htt x]
  · simp [acceptsAll, List.all_append, List.all_cons, hff x]

/-- C5 witness: the theorem at a concrete rule set over image names. -/
theorem ruleset_and_semantics_witness :
    (acceptsAll [fun n => n != "foo", fun n => !(strContains n "/")] "bar" = true
      ↔ ∀ fn ∈ [fun n => n != "foo", fun (n : String) => !(strContains n "/")],
          fn "bar" = true)
    ∧ acceptsAll ([] : List (String → Bool)) "bar" = true
    ∧ acceptsAll [fun n => n != "foo", fun _ => true] "bar"
        = acceptsAll [fun (n : String) => n != "foo"] "bar"
    ∧ acceptsAll [fun n => n != "foo", fun _ => false] "bar" = false :=
  ruleset_and_semantics [fun n => n != "foo", fun n => !(strContains n "/")]
    [fun n => n != "foo"] [] "bar" (fun _ => true) (fun _ => false)
    (fun _ => rfl) (fun _ => rfl)

/-- A pattern in neither recognized syntax makes `_parse_rule` raise. -/
theorem parse_rule_invalid (p : String)
    (h1 : strStartsWith p "regex:" = false)
    (h2 : strStartsWith p "contains:" = false) :
    parse_rule p = .error p := by
  simp [parse_rule, h1, h2]

/-- C7.  A rule whose pattern value (`name`, `tag` or `name_match`, as
consulted for its kind) is in neither `regex:` nor `contains:` syntax, or
a rule with neither a `name` nor a `tag` key, is discarded whole: it
contributes no predicate, and `_filters_from_file` still returns all
predicates of the remaining well-formed rules. -/
theorem invalid_rule_discarded (pre post : List (String × RuleSection))
    (nm : String) (r : RuleSection)
    (h : (∃ t, r.tag = some t
            ∧ strStartsWith t "regex:" = false ∧ strStartsWith t "contains:" = false)
       ∨ (r.tag ≠ none ∧ ∃ m, r.name_match = some m
            ∧ strStartsWith m "regex:" = false ∧ strStartsWith m "contains:" = false)
       ∨ (r.tag = none ∧ ∃ n, r.name = some n
            ∧ strStartsWith n "regex:" = false ∧ strStartsWith n "contains:" = false)
       ∨ (r.tag = none ∧ r.name = none)) :
    filters_from_file (pre ++ (nm, r) :: post) = filters_from_file (pre ++ post) := by
  induction pre with
  | nil =>
    have hstep : filters_from_file ((nm, r) :: post) = filters_from_file post := by
      rcases h with ⟨t, ht, h1, h2⟩ | ⟨hts, m, hm, h1, h2⟩ | ⟨hts, n, hn, h1, h2⟩ | ⟨hts, hns⟩
      · have hdrop : tag_rule r = none := by
          rcases hc : r.name_match with _ | m
          · simp [tag_rule, hc, ht, parse_rule_invalid t h1 h2]
          · rcases hp : parse_rule m with e | f
            · simp [tag_rule, hc, hp]
            · simp [tag_rule, hc, hp, ht, parse_rule_invalid t h1 h2]
        simp [filters_from_file, ht, hdrop]
      · obtain ⟨t, ht⟩ : ∃ t, r.tag = some t := Option.ne_none_iff_exists'.mp hts
        have hdrop : tag_rule r = none := by
          simp [tag_rule, hm, parse_rule_invalid m h1 h2]
        simp [filters_from_file, ht, hdrop]
      · have hdrop : image_rule r = none := by
          simp [image_rule, hn, parse_rule_invalid n h1 h2]
        simp [filters_from_file, hts, hn, hdrop]
      · simp [filters_from_file, hts, hns]
    simpa using hstep
  | cons q pre2 ih =>
    obtain ⟨qn, qr⟩ := q
    simp only [List.cons_append, filters_from_file, List.append_eq, ih]

/-- C7 witness: an `invalid`-syntax tag rule placed between two
well-formed rules contributes nothing; the two well-formed predicates
survive. -/
theorem invalid_rule_discarded_witness :
    filters_from_file
      [("no_devel_ns", { name := some "contains:devel/", action := some "exclude" }),
       ("invalid_tag", { tag := some "invalid", action := some "include" }),
       ("no_variable_tags", { tag := some "regex:(latest|stable)",
                              action := some "exclude" })]
    = filters_from_file
      [("no_devel_ns", { name := some "contains:devel/", action := some "exclude" }),
       ("no_variable_tags", { tag := some "regex:(latest|stable)",
                              action := some "exclude" })] :=
  invalid_rule_discarded
    [("no_devel_ns", { name := some "contains:devel/", action := some "exclude" })]
    [("no_variable_tags", { tag := some "regex:(latest|stable)",
                            action := some "exclude" })]
    "invalid_tag" { tag := some "invalid", action := some "include" }
    (Or.inl ⟨"invalid", rfl, by decide, by decide⟩)

/-- When some tag's key computation fails with a caught exception and no
tag's key computation fails with an uncaught one, the whole key pass
fails with the `RegistryBrowserError` naming the image. -/
theorem computeKeys_caught_error (image : String)
    (manifests : String → List ManifestPage) :
    ∀ (tags : List String) (t0 : String), t0 ∈ tags →
    (∃ e, get_tag_date (manifests t0) = .error e ∧ caughtBySort e = true) →
    (∀ t ∈ tags, ∀ e, get_tag_date (manifests t) = .error e → caughtBySort e = true) →
    computeKeys image manifests tags = .error (.sortError ("Could not sort " ++ image)) := by
  intro tags
  induction tags with
  | nil => intro t0 h0; exact absurd h0 (List.not_mem_nil t0)
  | cons t ts ih =>
    intro t0 h0 hbad hcaught
    cases hd : get_tag_date (manifests t) with
    | error e =>
      have hc := hcaught t (List.mem_cons_self t ts) e hd
      simp [computeKeys, sortKey, hd, hc]
    | ok d =>
      have ht0 : t0 ∈ ts := by
        rcases List.mem_cons.mp h0 with heq | hmem
        · subst heq
          obtain ⟨e, he, _⟩ := hbad
          rw [hd] at he
          exact absurd he (by simp)
        · exact hmem
      have hrec := ih t0 ht0 hbad (fun x hx => hcaught x (List.mem_cons_of_mem t hx))
      simp [computeKeys, sortKey, hd, hrec, Except.map]

/-- C6 counterexample: a manifest whose `created` field is present but
malformed (`"garbage"`, no fractional-seconds dot) makes the tuple
unpacking of `created.split(".")` raise a `ValueError`.  `ValueError` is
not in the `except` tuple at browser.py 89, so `sort_tags` propagates it
instead of raising the claimed `SortError`. -/
theorem sort_tags_malformed_created_uncaught :
    sort_tags "foo"
      (fun _ => [.dict (some [⟨some (.obj (some (.str "garbage")))⟩])]) ["0.1"]
      = .uncaught .valueError
    ∧ SortOutcome.uncaught .valueError ≠ .sortError "Could not sort foo" := by
  exact ⟨by decide, by decide⟩

/-- C6 (amended).  If some tag's manifest has one of the malformed-history
shapes caught at browser.py 89 — empty response, no history key, empty
history array, missing compatibility field, missing `created` field,
unparsable JSON — and no tag's manifest triggers an uncaught exception
(such as a present-but-malformed `created` value, which raises an
unhandled `ValueError` instead), then `sort_tags` raises a `SortError`
whose message names the image and returns no partial ordering; each of
the six malformed-history shapes does so. -/
theorem sort_tags_malformed_raises_sorterror (image t0 : String)
    (manifests : String → List ManifestPage) (tags : List String)
    (h0 : t0 ∈ tags)
    (hbad : ∃ e, get_tag_date (manifests t0) = .error e ∧ caughtBySort e = true)
    (hcaught : ∀ t ∈ tags, ∀ e, get_tag_date (manifests t) = .error e →
        caughtBySort e = true) :
    sort_tags image manifests tags = .sortError ("Could not sort " ++ image)
    ∧ strContains ("Could not sort " ++ image) image = true
    ∧ sort_tags image (fun _ => [.nonDict]) ["0.1", "0.2"]
        = .sortError ("Could not sort " ++ image)
    ∧ sort_tags image (fun _ => [.dict none]) ["0.1", "0.2"]
        = .sortError ("Could not sort " ++ image)
    ∧ sort_tags image (fun _ => [.dict (some [])]) ["0.1", "0.2"]
        = .sortError ("Could not sort " ++ image)
    ∧ sort_tags image (fun _ => [.dict (some [⟨none⟩])]) ["0.1", "0.2"]
        = .sortError ("Could not sort " ++ image)
    ∧ sort_tags image (fun _ => [.dict (some [⟨some (.obj none)⟩])]) ["0.1", "0.2"]
        = .sortError ("Could not sort " ++ image)
    ∧ sort_tags image (fun _ => [.dict (some [⟨some .malformedJson⟩])]) ["0.1", "0.2"]
        = .sortError ("Could not sort " ++ image) := by
  refine ⟨?_, strContains_prefix_append "Could not sort " image, ?_, ?_, ?_, ?_, ?_, ?_⟩
  · unfold sort_tags
    rw [computeKeys_caught_error image manifests tags t0 h0 hbad hcaught]
  all_goals simp [sort_tags, computeKeys, sortKey, get_tag_date, caughtBySort]

/-- C6 witness: the theorem applied to the "no history key" fixture for
image `test`. -/
theorem sort_tags_malformed_raises_sorterror_witness :
    sort_tags "test" (fun _ => [.dict none]) ["0.1", "0.2"]
      = .sortError "Could not sort test" := by
  have h := sort_tags_malformed_raises_sorterror "test" "0.1"
    (fun _ => [.dict none]) ["0.1", "0.2"] (by decide)
    ⟨.keyError, rfl, rfl⟩
    (by
      intro t ht e he
      have he2 : PyExc.keyError = e := by simpa [get_tag_date] using he
      rw [← he2]
      rfl)
  exact h.1.trans (by decide)

/-- Accumulating `run_report` over dispatched references: every reference
is classified independently of the others' outcomes. -/
theorem run_report_foldl (outcome : String → ReportOutcome) (images : List String) :
    ∀ st : ReporterState,
      images.foldl (run_report outcome) st =
        { exitcode := if images.any (fun i => outcome i == .failure) then 3 else st.exitcode,
          success := st.success ++ images.filter (fun i => outcome i == .success),
          failed := st.failed ++ images.filter (fun i => outcome i == .failure) } := by
  induction images with
  | nil => intro st; simp
  | cons i rest ih =>
    intro st
    cases hi : outcome i with
    | notDebian =>
      simp [List.foldl_cons, run_report, hi, ih, List.filter_cons, List.any_cons]
    | success =>
      simp [List.foldl_cons, run_report, hi, ih, List.filter_cons, List.any_cons]
    | failure =>
      simp [List.foldl_cons, run_report, hi, ih, List.filter_cons, List.any_cons]

/-- C8.  A discovery-phase `RegistryError`/`SortError` aborts before any
task dispatch (no reference dispatched, exit code 2, empty result lists),
while a report failure inside a dispatched task is recorded per task and
never aborts the remaining tasks: every dispatched reference is
classified by its own outcome alone. -/
theorem discovery_aborts_tasks_isolated (registry e : String)
    (imageTags : List (String × List String)) (outcome : String → ReportOutcome)
    (images : List String) (himgs : get_images registry imageTags = some images) :
    reporter_run registry (.error e) outcome
      = some ([], { exitcode := 2, success := [], failed := [] })
    ∧ reporter_run registry (.ok imageTags) outcome
      = some (images,
          { exitcode := if images.any (fun i => outcome i == .failure) then 3 else 0,
            success := images.filter (fun i => outcome i == .success),
            failed := images.filter (fun i => outcome i == .failure) }) := by
  constructor
  · rfl
  · simp [reporter_run, himgs, run_report_foldl, initialState]

/-- C8 witness: a discovery failure dispatches nothing; with two
dispatched references of which the first fails, the second is still
processed and succeeds. -/
theorem discovery_aborts_tasks_isolated_witness :
    reporter_run "example.org" (.error "boom")
      (fun _ => ReportOutcome.success)
      = some ([], { exitcode := 2, success := [], failed := [] })
    ∧ reporter_run "example.org"
        (.ok [("pink", ["a"]), ("test", ["1", "3", "latest"])])
        (fun i => if i == "example.org/pink:a" then .failure else .success)
      = some (["example.org/pink:a", "example.org/test:latest"],
          { exitcode := 3, success := ["example.org/test:latest"],
            failed := ["example.org/pink:a"] }) := by
  have h := discovery_aborts_tasks_isolated "example.org" "boom"
    [("pink", ["a"]), ("test", ["1", "3", "latest"])]
    (fun i => if i == "example.org/pink:a" then .failure else .success)
    ["example.org/pink:a", "example.org/test:latest"] (by decide)
  exact ⟨h.1, h.2.trans (by decide)⟩

/-- C9 counterexample: glob `*test` over `["a","b","atest","latest"]`
also selects `latest` (it ends in `test`), so the claimed selection of
exactly `["atest"]` is false. -/
theorem fnmatch_star_test_counterexample :
    fnmatch_filter ["a", "b", "atest", "latest"] "*test" = ["atest", "latest"]
    ∧ (["atest", "latest"] : List String) ≠ ["atest"] := by
  exact ⟨by decide, by decide⟩

/-- C9 (amended).  Glob `l*` over `["a","b","atest","latest"]` selects
exactly `["latest"]`, and glob `*test` selects exactly
`["atest","latest"]` (both names ending in `test`), in list order. -/
theorem fnmatch_glob_selection :
    fnmatch_filter ["a", "b", "atest", "latest"] "l*" = ["latest"]
    ∧ fnmatch_filter ["a", "b", "atest", "latest"] "*test" = ["atest", "latest"] := by
  exact ⟨by decide, by decide⟩

end DockerReport
